import Mathlib

/-!
Verification of the game-session state machine of `src/chess_engine.py`
(repository ashish66212/Faluda).

The session core is the `ChessGame` class (lines 8-99) plus the two Flask
routes `/start` (lines 103-106) and `/move` (lines 108-120).  The chess-rules
library (python-chess) and the move selector (Stockfish) are external
collaborators; here they are abstract parameters (`Rules`, `Engine`) over an
abstract board.  A board is modelled as the list of moves pushed onto the
fresh initial position, which is exactly the information the session itself
manipulates: `chess.Board()` is the empty history and `board.push(m)` appends.

Python exceptions that escape a handler are modelled with `Except`: the
result of an operation is a pair of the response (`Except.ok msg`) or the
escaped exception (`Except.error e`), together with the session state after
the operation, since in Python the mutations done before a raise persist.
-/

namespace Faluda

/-- Python `str.isspace` for the ASCII whitespace characters, used by
`str.strip()`. -/
def isPySpace (c : Char) : Bool :=
  c = ' ' || c = '\t' || c = '\n' || c = '\r' || c = '\x0b' || c = '\x0c'

/-- Remove trailing whitespace characters from a list of characters. -/
def dropTrailingSpaces : List Char → List Char
  | [] => []
  | a :: t =>
    if (dropTrailingSpaces t).isEmpty then (if isPySpace a then [] else [a])
    else a :: dropTrailingSpaces t

/-- Strip leading and trailing whitespace from a character list, the body of
Python `str.strip()`. -/
def pyStripL (l : List Char) : List Char :=
  dropTrailingSpaces (l.dropWhile isPySpace)

/-- Python `str.strip()`. -/
def pyStrip (s : String) : String :=
  String.mk (pyStripL s.toList)

/-- Python `str.lower()` (ASCII letters). -/
def pyLower (s : String) : String :=
  String.mk (s.toList.map Char.toLower)

/-- A move as parsed by `chess.Move.from_uci`: origin and destination square
indices (0..63), an optional promotion piece type, and an optional drop piece
type. -/
structure UciMove where
  from_square : Nat
  to_square : Nat
  promotion : Option Nat
  drop : Option Nat
deriving DecidableEq

/-- Index of a square name in `chess.SQUARE_NAMES` (a1 = 0, b1 = 1, ...,
h8 = 63), `none` when the two characters do not form a square name. -/
def squareIndex (f r : Char) : Option Nat :=
  if 'a' ≤ f && f ≤ 'h' && '1' ≤ r && r ≤ '8' then
    some ((r.toNat - '1'.toNat) * 8 + (f.toNat - 'a'.toNat))
  else none

/-- Index of a piece symbol in `chess.PIECE_SYMBOLS` (p = 1, n = 2, b = 3,
r = 4, q = 5, k = 6), `none` when the character is not a piece symbol. -/
def pieceSymbolIndex (c : Char) : Option Nat :=
  if c = 'p' then some 1
  else if c = 'n' then some 2
  else if c = 'b' then some 3
  else if c = 'r' then some 4
  else if c = 'q' then some 5
  else if c = 'k' then some 6
  else none

/-- The parser `chess.Move.from_uci`: `"0000"` is the null move; a length-4
string with `@` second is a drop move; otherwise four or five characters are
origin square, destination square and optional promotion symbol, with equal
origin and destination rejected.  `none` models the raised
`InvalidMoveError`. -/
def fromUci (uci : String) : Option UciMove :=
  match uci.toList with
  | ['0', '0', '0', '0'] => some ⟨0, 0, none, none⟩
  | [p, '@', f, r] =>
    match pieceSymbolIndex p.toLower, squareIndex f r with
    | some d, some sq => some ⟨sq, sq, none, some d⟩
    | _, _ => none
  | [a, b, c, d] =>
    match squareIndex a b, squareIndex c d with
    | some fs, some ts => if fs = ts then none else some ⟨fs, ts, none, none⟩
    | _, _ => none
  | [a, b, c, d, e] =>
    match squareIndex a b, squareIndex c d, pieceSymbolIndex e with
    | some fs, some ts, some pr =>
      if fs = ts then none else some ⟨fs, ts, some pr, none⟩
    | _, _, _ => none
  | _ => none

/-- A board position, identified with the sequence of moves pushed onto the
fresh initial position (`chess.Board()` followed by `push` calls). -/
abbrev Board := List UciMove

/-- The fresh initial position `chess.Board()`. -/
def startBoard : Board := []

/-- The mutation `board.push(move)`. -/
def pushMove (b : Board) (m : UciMove) : Board := b ++ [m]

/-- The side to move of a position (`board.turn`): White (`true`) exactly
when an even number of moves has been pushed. -/
def sideToMove (b : Board) : Bool := b.length % 2 = 0

/-- The rules oracle (python-chess) as consumed by the session: legal-move
enumeration and the three terminal-condition tests. -/
structure Rules where
  legalMoves : Board → List UciMove
  isCheckmate : Board → Bool
  isStalemate : Board → Bool
  isInsufficientMaterial : Board → Bool

/-- The move selector (Stockfish) as consumed by the session:
`set_fen_position` on the current board followed by `get_best_move_time(2000)`
is a function from the position to an optional best-move string. -/
structure Engine where
  bestMoveTime : Board → Option String

/-- Python exceptions that can escape the session methods. -/
inductive PyExc where
  | invalidMove : String → PyExc
  | attributeError : PyExc
deriving DecidableEq

/-- The session state of class `ChessGame`: the four instance attributes set
in `__init__` and mutated by the methods.  `user_color` uses the python-chess
encoding `chess.WHITE = true`, `chess.BLACK = false`. -/
structure ChessGame where
  board : Option Board
  user_color : Option Bool
  game_started : Bool
  waiting_for_color : Bool
deriving DecidableEq

/-- The state after `ChessGame.__init__` (engine construction aside): no
board, no color, not started, not waiting. -/
def initGame : ChessGame :=
  { board := none, user_color := none, game_started := false,
    waiting_for_color := false }

/-- Method `ChessGame.start_game` (lines 40-44): fresh board, flags reset,
fixed prompt returned.  `user_color` is not touched. -/
def start_game (g : ChessGame) : String × ChessGame :=
  ("Game started. Choose engine color: black or white?",
   { g with board := some startBoard, game_started := false,
            waiting_for_color := true })

/-- Method `ChessGame._get_engine_move` (lines 64-72) on a given board.
A falsy reply (None or the empty string) falls through to `return None`;
a reply that `chess.Move.from_uci` cannot parse raises (`Except.error`), the
exception escaping the method; a parseable reply not in the legal-move set
falls through to `return None`; a legal reply is pushed and returned. -/
def getEngineMove (R : Rules) (E : Engine) (b : Board) :
    Except PyExc (Option String) × Board :=
  match E.bestMoveTime b with
  | none => (.ok none, b)
  | some s =>
    if s = "" then (.ok none, b)
    else
      match fromUci s with
      | none => (.error (.invalidMove s), b)
      | some m =>
        if m ∈ R.legalMoves b then (.ok (some s), pushMove b m)
        else (.ok none, b)

/-- Method `ChessGame.set_color` (lines 46-62): strip and lowercase the
input, reject anything but `black`/`white`, record the colors and flags, and
when the engine is White run the engine turn before answering.  Accessing a
`None` board raises `AttributeError`. -/
def set_color (R : Rules) (E : Engine) (g : ChessGame) (color_input : String) :
    Except PyExc String × ChessGame :=
  let ci := pyLower (pyStrip color_input)
  if ci ∉ (["black", "white"] : List String) then
    (.ok "Invalid color. Choose \x27black\x27 or \x27white\x27.", g)
  else
    let engine_color : Bool := ci = "white"
    let g1 : ChessGame :=
      { g with user_color := some (!engine_color), game_started := true,
               waiting_for_color := false }
    if engine_color then
      match g1.board with
      | none => (.error .attributeError, g1)
      | some b =>
        match getEngineMove R E b with
        | (.error e, b2) => (.error e, { g1 with board := some b2 })
        | (.ok none, b2) => (.ok "Engine error", { g1 with board := some b2 })
        | (.ok (some em), b2) =>
          (.ok ("You are white. First move: " ++ em),
           { g1 with board := some b2 })
    else
      (.ok "Engine is black. You are white. Make your move.", g1)

/-- Method `ChessGame.make_move` (lines 74-99): strip and lowercase, parse
(the bare `except` covers only `from_uci`), check legality, push the move,
test the terminal conditions, otherwise run the engine turn and test them
again.  Accessing a `None` board raises `AttributeError`. -/
def make_move (R : Rules) (E : Engine) (g : ChessGame) (move_input : String) :
    Except PyExc String × ChessGame :=
  let mi := pyLower (pyStrip move_input)
  match fromUci mi with
  | none => (.ok "Illegal move", g)
  | some move =>
    match g.board with
    | none => (.error .attributeError, g)
    | some b =>
      if move ∉ R.legalMoves b then (.ok "Illegal move", g)
      else
        let b1 := pushMove b move
        let g1 : ChessGame := { g with board := some b1 }
        if R.isCheckmate b1 then (.ok "Checkmate, you win!", g1)
        else if R.isStalemate b1 || R.isInsufficientMaterial b1 then
          (.ok "Draw", g1)
        else
          match getEngineMove R E b1 with
          | (.error e, b2) => (.error e, { g1 with board := some b2 })
          | (.ok none, b2) => (.ok "Engine error", { g1 with board := some b2 })
          | (.ok (some em), b2) =>
            let g2 : ChessGame := { g1 with board := some b2 }
            if R.isCheckmate b2 then (.ok (em ++ "\nCheckmate, I win!"), g2)
            else if R.isStalemate b2 || R.isInsufficientMaterial b2 then
              (.ok (em ++ "\nDraw"), g2)
            else (.ok em, g2)

/-- Route `POST /start` (lines 103-106): unconditionally `start_game`. -/
def startRoute (g : ChessGame) : String × ChessGame := start_game g

/-- Route `POST /move` (lines 108-120): the stripped body goes to
`set_color` while a color is awaited, is refused while no game is started,
and goes to `make_move` otherwise. -/
def moveRoute (R : Rules) (E : Engine) (g : ChessGame) (raw : String) :
    Except PyExc String × ChessGame :=
  let move_input := pyStrip raw
  if g.waiting_for_color then set_color R E g move_input
  else if !g.game_started then
    (.ok "No game in progress. Start a game with /start", g)
  else make_move R E g move_input

/-- The four phases named by the specification. -/
inductive Phase where
  | NotStarted
  | AwaitingColorChoice
  | InProgress
  | Finished
deriving DecidableEq

/-- The phase encoded by the two session flags, following the state table of
the specification: `waiting_for_color` is `AwaitingColorChoice` (entered by
`start_game`), otherwise `game_started` is `InProgress` (entered by
`set_color`), otherwise `NotStarted` (the `__init__` state).  No value of the
flags encodes `Finished`: the class has no field that records a finished
game. -/
def phaseOf (g : ChessGame) : Phase :=
  if g.waiting_for_color then .AwaitingColorChoice
  else if g.game_started then .InProgress
  else .NotStarted

/-- The engine color, the complement of `user_color` (line 52). -/
def engineColorOf (g : ChessGame) : Option Bool :=
  g.user_color.map (fun c => !c)

/-! Concrete moves, oracles, selectors and states used to instantiate the
theorems below. -/

/-- The move `e2e4`. -/
def e2e4M : UciMove := ⟨12, 28, none, none⟩

/-- The move `e7e5`. -/
def e7e5M : UciMove := ⟨52, 36, none, none⟩

/-- The move `g2g4`. -/
def g2g4M : UciMove := ⟨14, 30, none, none⟩

/-- The move `d8h4`. -/
def d8h4M : UciMove := ⟨59, 31, none, none⟩

/-- A rules oracle for a quiet opening: `e2e4` is legal on the initial
position, `e7e5` after it, and no position is terminal. -/
def R0 : Rules :=
  ⟨fun b => if b = [] then [e2e4M] else if b = [e2e4M] then [e7e5M] else [],
   fun _ => false, fun _ => false, fun _ => false⟩

/-- A move selector that opens `e2e4` and replies `e7e5`. -/
def E0 : Engine :=
  ⟨fun b => if b = [] then some "e2e4"
    else if b = [e2e4M] then some "e7e5" else none⟩

/-- A move selector that never produces a move. -/
def Enone : Engine := ⟨fun _ => none⟩

/-- A move selector that returns a string `from_uci` cannot parse. -/
def Ebad : Engine := ⟨fun _ => some "xyz"⟩

/-- A rules oracle where the human mates at once: `d8h4` is legal on the
initial position and every nonempty position is checkmate. -/
def Rmate : Rules :=
  ⟨fun b => if b = [] then [d8h4M] else [],
   fun b => !b.isEmpty, fun _ => false, fun _ => false⟩

/-- A rules oracle where material becomes insufficient after two moves while
legal moves remain available. -/
def RD : Rules :=
  ⟨fun b => if b = [] then [e2e4M]
    else if b = [e2e4M] then [e7e5M]
    else if b = [e2e4M, e7e5M] then [g2g4M] else [],
   fun _ => false, fun _ => false, fun b => decide (2 ≤ b.length)⟩

/-- A move selector that opens `e2e4` and then stays silent. -/
def ED : Engine := ⟨fun b => if b = [] then some "e2e4" else none⟩

/-- The state after `/start` on a fresh process. -/
def gStart : ChessGame := (start_game initGame).2

/-- An in-progress state on the initial position with the human as White
(reached by `/start` then choosing `black`). -/
def gP : ChessGame :=
  { board := some [], user_color := some true, game_started := true,
    waiting_for_color := false }

/-- An in-progress state on the initial position with the human as Black
(reached by `/start`, choosing `white`, and the engine failing). -/
def gF : ChessGame :=
  { board := some [], user_color := some false, game_started := true,
    waiting_for_color := false }

/-- An in-progress state after the engine opened `e2e4`. -/
def gA6 : ChessGame :=
  { board := some [e2e4M], user_color := some false, game_started := true,
    waiting_for_color := false }

/-- An in-progress state after `e2e4` and `e7e5`. -/
def gB6 : ChessGame :=
  { board := some [e2e4M, e7e5M], user_color := some false,
    game_started := true, waiting_for_color := false }

/-! Helper lemmas. -/

/-- The head of `dropWhile p l`, when present, fails `p`. -/
theorem head?_dropWhile_not (p : Char → Bool) (l : List Char) :
    ∀ a, (l.dropWhile p).head? = some a → p a = false := by
  induction l with
  | nil => intro a h; simp [List.dropWhile] at h
  | cons b t ih =>
    intro a h
    cases hb : p b with
    | true => rw [List.dropWhile_cons_of_pos hb] at h; exact ih a h
    | false =>
      rw [List.dropWhile_cons_of_neg (by simp [hb])] at h
      simp at h
      rw [← h]; exact hb

/-- A list whose head fails `p` is unchanged by `dropWhile p`. -/
theorem dropWhile_head_eq_self (p : Char → Bool) (l : List Char)
    (h : ∀ a, l.head? = some a → p a = false) : l.dropWhile p = l := by
  cases l with
  | nil => rfl
  | cons a t => exact List.dropWhile_cons_of_neg (by simp [h a rfl])

/-- Removing trailing spaces is idempotent. -/
theorem dropTrailingSpaces_idem (l : List Char) :
    dropTrailingSpaces (dropTrailingSpaces l) = dropTrailingSpaces l := by
  induction l with
  | nil => rfl
  | cons a t ih =>
    by_cases hr : (dropTrailingSpaces t).isEmpty
    · by_cases ha : isPySpace a
      · simp [dropTrailingSpaces, hr, ha]
      · simp [dropTrailingSpaces, hr, ha]
    · simp [dropTrailingSpaces, hr, ih]

/-- Removing trailing spaces keeps the head of a list when the result is
nonempty. -/
theorem head?_dropTrailingSpaces (l : List Char)
    (h : dropTrailingSpaces l ≠ []) :
    (dropTrailingSpaces l).head? = l.head? := by
  cases l with
  | nil => exact absurd rfl h
  | cons a t =>
    by_cases hr : (dropTrailingSpaces t).isEmpty
    · by_cases ha : isPySpace a
      · exact absurd (by simp [dropTrailingSpaces, hr, ha]) h
      · simp [dropTrailingSpaces, hr, ha]
    · simp [dropTrailingSpaces, hr]

/-- A stripped character list is unchanged by a further `dropWhile`. -/
theorem dropWhile_pyStripL (l : List Char) :
    (pyStripL l).dropWhile isPySpace = pyStripL l := by
  apply dropWhile_head_eq_self
  intro a ha
  have hne : dropTrailingSpaces (l.dropWhile isPySpace) ≠ [] := by
    intro hnil
    unfold pyStripL at ha
    rw [hnil] at ha
    simp at ha
  have h2 := head?_dropTrailingSpaces (l.dropWhile isPySpace) hne
  unfold pyStripL at ha
  rw [h2] at ha
  exact head?_dropWhile_not isPySpace l a ha

/-- Stripping a character list is idempotent. -/
theorem pyStripL_idem (l : List Char) : pyStripL (pyStripL l) = pyStripL l := by
  show dropTrailingSpaces ((pyStripL l).dropWhile isPySpace) = pyStripL l
  rw [dropWhile_pyStripL]
  exact dropTrailingSpaces_idem _

/-- Python `strip` is idempotent: the route strips the body and the methods
strip again. -/
theorem pyStrip_idem (s : String) : pyStrip (pyStrip s) = pyStrip s := by
  show String.mk (pyStripL (String.mk (pyStripL s.toList)).toList) = _
  rw [show (String.mk (pyStripL s.toList)).toList = pyStripL s.toList from rfl,
    pyStripL_idem]
  rfl

/-- The phase is `AwaitingColorChoice` exactly when `waiting_for_color` is
set. -/
theorem phase_awaiting_iff (g : ChessGame) :
    phaseOf g = Phase.AwaitingColorChoice ↔ g.waiting_for_color = true := by
  cases hw : g.waiting_for_color <;> cases hs : g.game_started <;>
    simp [phaseOf, hw, hs]

/-- The phase is `InProgress` exactly when `game_started` is set and
`waiting_for_color` is clear. -/
theorem phase_inProgress_iff (g : ChessGame) :
    phaseOf g = Phase.InProgress ↔
      g.waiting_for_color = false ∧ g.game_started = true := by
  cases hw : g.waiting_for_color <;> cases hs : g.game_started <;>
    simp [phaseOf, hw, hs]

/-- The engine turn leaves the board unchanged or pushes exactly one move. -/
theorem getEngineMove_board (R : Rules) (E : Engine) (b : Board) :
    (getEngineMove R E b).2 = b ∨
      ∃ m, (getEngineMove R E b).2 = pushMove b m := by
  unfold getEngineMove
  cases hE : E.bestMoveTime b with
  | none => left; rfl
  | some s =>
    by_cases hs : s = ""
    · left; simp [hs]
    · cases hm : fromUci s with
      | none => left; simp [hs, hm]
      | some m =>
        by_cases hleg : m ∈ R.legalMoves b
        · right; exact ⟨m, by simp [hs, hm, hleg]⟩
        · left; simp [hs, hm, hleg]

/-- Method `make_move` only ever rewrites the `board` attribute: the colors
and phase flags are untouched in every branch. -/
theorem make_move_shape (R : Rules) (E : Engine) (g : ChessGame) (s : String) :
    ∃ r ob, make_move R E g s = (r, { g with board := ob }) := by
  simp only [make_move]
  repeat' split
  all_goals exact ⟨_, _, rfl⟩

/-- Method `make_move` never reads `user_color`: overwriting the attribute
commutes with the call. -/
theorem make_move_user_color (R : Rules) (E : Engine) (g : ChessGame)
    (s : String) (c : Option Bool) :
    make_move R E { g with user_color := c } s =
      ((make_move R E g s).1, { (make_move R E g s).2 with user_color := c }) := by
  cases hf : fromUci (pyLower (pyStrip s)) with
  | none => simp [make_move, hf]
  | some mv =>
    cases hbb : g.board with
    | none => simp [make_move, hf, hbb]
    | some b =>
      by_cases hleg : mv ∈ R.legalMoves b
      · by_cases hcm : R.isCheckmate (pushMove b mv)
        · simp [make_move, hf, hbb, hleg, hcm]
        · by_cases hds :
            (R.isStalemate (pushMove b mv) ||
              R.isInsufficientMaterial (pushMove b mv)) = true
          · simp [make_move, hf, hbb, hleg, hcm, hds]
          · rcases hge : getEngineMove R E (pushMove b mv) with ⟨res, b2⟩
            cases res with
            | error e => simp [make_move, hf, hbb, hleg, hcm, hds, hge]
            | ok o =>
              cases o with
              | none => simp [make_move, hf, hbb, hleg, hcm, hds, hge]
              | some em =>
                by_cases hcm2 : R.isCheckmate b2
                · simp [make_move, hf, hbb, hleg, hcm, hds, hge, hcm2]
                · by_cases hds2 :
                    (R.isStalemate b2 || R.isInsufficientMaterial b2) = true
                  · simp [make_move, hf, hbb, hleg, hcm, hds, hge, hcm2, hds2]
                  · simp [make_move, hf, hbb, hleg, hcm, hds, hge, hcm2, hds2]
      · simp [make_move, hf, hbb, hleg]

/-- A parseable member of the legal-move set is always pushed: the resulting
board extends the old one by that move (plus at most the engine reply). -/
theorem make_move_applies (R : Rules) (E : Engine) (g : ChessGame) (b : Board)
    (s : String) (mv : UciMove) (hb : g.board = some b)
    (hm : fromUci (pyLower (pyStrip s)) = some mv)
    (hleg : mv ∈ R.legalMoves b) :
    ∃ rest, (make_move R E g s).2.board = some (pushMove b mv ++ rest) := by
  by_cases hcm : R.isCheckmate (pushMove b mv)
  · exact ⟨[], by simp [make_move, hm, hb, hleg, hcm]⟩
  · by_cases hds :
      (R.isStalemate (pushMove b mv) ||
        R.isInsufficientMaterial (pushMove b mv)) = true
    · exact ⟨[], by simp [make_move, hm, hb, hleg, hcm, hds]⟩
    · rcases hge : getEngineMove R E (pushMove b mv) with ⟨res, b2⟩
      have hb2 : b2 = pushMove b mv ∨ ∃ m2, b2 = pushMove (pushMove b mv) m2 := by
        have := getEngineMove_board R E (pushMove b mv)
        rw [hge] at this
        exact this
      have hrest : ∃ rest, b2 = pushMove b mv ++ rest := by
        rcases hb2 with h | ⟨m2, h⟩
        · exact ⟨[], by simp [h]⟩
        · exact ⟨[m2], by simp [h, pushMove]⟩
      rcases hrest with ⟨rest, hrest⟩
      subst hrest
      refine ⟨rest, ?_⟩
      cases res with
      | error e => simp [make_move, hm, hb, hleg, hcm, hds, hge]
      | ok o =>
        cases o with
        | none => simp [make_move, hm, hb, hleg, hcm, hds, hge]
        | some em =>
          by_cases hcm2 : R.isCheckmate (pushMove b mv ++ rest)
          · simp [make_move, hm, hb, hleg, hcm, hds, hge, hcm2]
          · by_cases hds2 :
              (R.isStalemate (pushMove b mv ++ rest) ||
                R.isInsufficientMaterial (pushMove b mv ++ rest)) = true
            · simp [make_move, hm, hb, hleg, hcm, hds, hge, hcm2, hds2]
            · simp [make_move, hm, hb, hleg, hcm, hds, hge, hcm2, hds2]

/-- No value of the session flags encodes `Finished`. -/
theorem phaseOf_ne_finished (g : ChessGame) : phaseOf g ≠ Phase.Finished := by
  cases hw : g.waiting_for_color <;> cases hs : g.game_started <;>
    simp [phaseOf, hw, hs]

/-- While a color is awaited, `/move` dispatches the stripped body to
`set_color`. -/
theorem moveRoute_awaiting (R : Rules) (E : Engine) (g : ChessGame)
    (raw : String) (hwc : g.waiting_for_color = true) :
    moveRoute R E g raw = set_color R E g (pyStrip raw) := by
  simp [moveRoute, hwc]

/-- While a game is in progress, `/move` dispatches the stripped body to
`make_move`. -/
theorem moveRoute_inProgress (R : Rules) (E : Engine) (g : ChessGame)
    (raw : String) (hwf : g.waiting_for_color = false)
    (hgs : g.game_started = true) :
    moveRoute R E g raw = make_move R E g (pyStrip raw) := by
  simp [moveRoute, hwf, hgs]

/-- An input that is neither color word is refused by `set_color` with the
state unchanged. -/
theorem set_color_invalid (R : Rules) (E : Engine) (g : ChessGame)
    (ci : String) (h1 : pyLower (pyStrip ci) ≠ "black")
    (h2 : pyLower (pyStrip ci) ≠ "white") :
    set_color R E g ci =
      (.ok "Invalid color. Choose \x27black\x27 or \x27white\x27.", g) := by
  have hmem : pyLower (pyStrip ci) ∉ (["black", "white"] : List String) := by
    simp [h1, h2]
  simp [set_color, hmem]

/-- Choosing `black` makes the engine Black and the human White, with no
engine move. -/
theorem set_color_black (R : Rules) (E : Engine) (g : ChessGame) (ci : String)
    (hci : pyLower (pyStrip ci) = "black") :
    set_color R E g ci =
      (.ok "Engine is black. You are white. Make your move.",
       { g with user_color := some true, game_started := true,
                waiting_for_color := false }) := by
  simp [set_color, hci]

/-- Choosing `white` makes the engine White; when the engine turn yields a
legal move it is pushed and echoed in the response. -/
theorem set_color_white_success (R : Rules) (E : Engine) (g : ChessGame)
    (b : Board) (ci : String) (em : String) (m : UciMove)
    (hci : pyLower (pyStrip ci) = "white") (hb : g.board = some b)
    (hE : E.bestMoveTime b = some em) (hne : em ≠ "")
    (hm : fromUci em = some m) (hleg : m ∈ R.legalMoves b) :
    set_color R E g ci =
      (.ok ("You are white. First move: " ++ em),
       { g with user_color := some false, game_started := true,
                waiting_for_color := false, board := some (pushMove b m) }) := by
  simp [set_color, hci, hb, getEngineMove, hE, hne, hm, hleg]

/-- Choosing `white` when the engine turn yields no move answers
`Engine error` with the board unchanged. -/
theorem set_color_white_fail (R : Rules) (E : Engine) (g : ChessGame)
    (b : Board) (ci : String) (hci : pyLower (pyStrip ci) = "white")
    (hb : g.board = some b) (hfail : getEngineMove R E b = (.ok none, b)) :
    set_color R E g ci =
      (.ok "Engine error",
       { g with user_color := some false, game_started := true,
                waiting_for_color := false }) := by
  simp [set_color, hci, hb, hfail]

/-! The ten claims. -/

/-- C1: a `/move` call whose input, after trimming and lowercasing, is
`black` or `white` while a color is awaited sets the engine to the requested
color (the human to its complement) and the phase to `InProgress`; with the
engine White the engine moves exactly once (when its turn yields a legal
move, the non-failure path — the failure path is the subject of C7) and the
response echoes that move; with the engine Black no move occurs and the
response states the human plays White. -/
theorem chooseColor_valid (R : Rules) (E : Engine) (g : ChessGame) (b : Board)
    (raw : String) (hph : phaseOf g = Phase.AwaitingColorChoice)
    (hb : g.board = some b) :
    (pyLower (pyStrip raw) = "black" →
      moveRoute R E g raw =
        (.ok "Engine is black. You are white. Make your move.",
         { g with user_color := some true, game_started := true,
                  waiting_for_color := false }) ∧
      engineColorOf (moveRoute R E g raw).2 = some false ∧
      phaseOf (moveRoute R E g raw).2 = Phase.InProgress ∧
      (moveRoute R E g raw).2.board = some b) ∧
    (pyLower (pyStrip raw) = "white" →
      ∀ em m, E.bestMoveTime b = some em → em ≠ "" → fromUci em = some m →
        m ∈ R.legalMoves b →
        moveRoute R E g raw =
          (.ok ("You are white. First move: " ++ em),
           { g with user_color := some false, game_started := true,
                    waiting_for_color := false,
                    board := some (pushMove b m) }) ∧
        engineColorOf (moveRoute R E g raw).2 = some true ∧
        phaseOf (moveRoute R E g raw).2 = Phase.InProgress ∧
        (moveRoute R E g raw).2.board = some (pushMove b m)) := by
  have hwc := (phase_awaiting_iff g).mp hph
  constructor
  · intro hc
    have hci : pyLower (pyStrip (pyStrip raw)) = "black" := by
      rw [pyStrip_idem]; exact hc
    have h1 := (moveRoute_awaiting R E g raw hwc).trans
      (set_color_black R E g (pyStrip raw) hci)
    refine ⟨h1, ?_, ?_, ?_⟩
    · rw [h1]; rfl
    · rw [h1]; rfl
    · rw [h1]; exact hb
  · intro hc em m hE hne hm hleg
    have hci : pyLower (pyStrip (pyStrip raw)) = "white" := by
      rw [pyStrip_idem]; exact hc
    have h1 := (moveRoute_awaiting R E g raw hwc).trans
      (set_color_white_success R E g b (pyStrip raw) em m hci hb hE hne hm hleg)
    refine ⟨h1, ?_, ?_, ?_⟩
    · rw [h1]; rfl
    · rw [h1]; rfl
    · rw [h1]

/-- C1 witness: on the state after `/start`, choosing `black` and choosing
`white` (with a selector whose reply `e2e4` is legal) behave as stated. -/
theorem chooseColor_valid_witness :
    phaseOf gStart = Phase.AwaitingColorChoice ∧ gStart.board = some startBoard ∧
    moveRoute R0 E0 gStart "black" =
      (.ok "Engine is black. You are white. Make your move.",
       { gStart with user_color := some true, game_started := true,
                     waiting_for_color := false }) ∧
    moveRoute R0 E0 gStart "white" =
      (.ok ("You are white. First move: " ++ "e2e4"),
       { gStart with user_color := some false, game_started := true,
                     waiting_for_color := false,
                     board := some (pushMove startBoard e2e4M) }) :=
  ⟨by decide, rfl,
   ((chooseColor_valid R0 E0 gStart startBoard "black" (by decide) rfl).1
     (by decide)).1,
   ((chooseColor_valid R0 E0 gStart startBoard "white" (by decide) rfl).2
     (by decide) "e2e4" e2e4M rfl (by decide) (by decide) (by decide)).1⟩

/-- C2 counterexample: after `/start`, choosing `white` makes the human
Black (`user_color = some false`), applies one engine move, and leaves the
board off the initial position, contrary to the claimed engine-Black,
human-White, untouched-board outcome; and choosing `black` leaves the board
on the initial position with zero plies, contrary to the claimed one applied
engine move. -/
theorem chooseColor_scenario_counterexample :
    moveRoute R0 E0 gStart "white" =
      (.ok "You are white. First move: e2e4",
       { board := some [e2e4M], user_color := some false,
         game_started := true, waiting_for_color := false }) ∧
    ¬((moveRoute R0 E0 gStart "white").2.user_color = some true ∧
      (moveRoute R0 E0 gStart "white").2.board = some startBoard) ∧
    moveRoute R0 E0 gStart "black" =
      (.ok "Engine is black. You are white. Make your move.",
       { board := some startBoard, user_color := some true,
         game_started := true, waiting_for_color := false }) ∧
    ¬((moveRoute R0 E0 gStart "black").2.board.map List.length = some 1) :=
  ⟨rfl, by decide, rfl, by decide⟩

/-- C2 amended: the chosen color is the ENGINE color.  After `start()` then
`chooseColor("white")` the engine is White and the human Black; when the
engine turn yields a legal move the response includes that one applied move,
the board has exactly one ply, and the side to move is Black (the human).
After `start()` then `chooseColor("black")` the engine is Black, the human
White, the response states the human plays White, and the board is the
untouched initial position. -/
theorem chooseColor_scenarios (R : Rules) (E : Engine) (em : String)
    (m : UciMove) (hE : E.bestMoveTime startBoard = some em) (hne : em ≠ "")
    (hm : fromUci em = some m) (hleg : m ∈ R.legalMoves startBoard) :
    (moveRoute R E gStart "white" =
      (.ok ("You are white. First move: " ++ em),
       { gStart with user_color := some false, game_started := true,
                     waiting_for_color := false,
                     board := some (pushMove startBoard m) }) ∧
     sideToMove (pushMove startBoard m) = false ∧
     (pushMove startBoard m).length = 1) ∧
    moveRoute R E gStart "black" =
      (.ok "Engine is black. You are white. Make your move.",
       { gStart with user_color := some true, game_started := true,
                     waiting_for_color := false }) := by
  refine ⟨⟨?_, rfl, rfl⟩, ?_⟩
  · exact (moveRoute_awaiting R E gStart "white" rfl).trans
      (set_color_white_success R E gStart startBoard (pyStrip "white") em m
        rfl rfl hE hne hm hleg)
  · exact (moveRoute_awaiting R E gStart "black" rfl).trans
      (set_color_black R E gStart (pyStrip "black") rfl)

/-- C2 amended witness: the concrete selector opening `e2e4`. -/
theorem chooseColor_scenarios_witness :
    E0.bestMoveTime startBoard = some "e2e4" ∧ ("e2e4" : String) ≠ "" ∧
    fromUci "e2e4" = some e2e4M ∧ e2e4M ∈ R0.legalMoves startBoard ∧
    moveRoute R0 E0 gStart "black" =
      (.ok "Engine is black. You are white. Make your move.",
       { gStart with user_color := some true, game_started := true,
                     waiting_for_color := false }) :=
  ⟨rfl, by decide, by decide, by decide,
   (chooseColor_scenarios R0 E0 "e2e4" e2e4M rfl (by decide) (by decide)
     (by decide)).2⟩

/-- C3 counterexample: a reachable game where the human mates: the response
is `Checkmate, you win!` but the resulting phase is still `InProgress` — no
`Finished` phase is recorded by the code. -/
theorem terminal_no_finished_phase :
    moveRoute Rmate Enone gStart "black" =
      (.ok "Engine is black. You are white. Make your move.", gP) ∧
    make_move Rmate Enone gP "d8h4" =
      (.ok "Checkmate, you win!", { gP with board := some [d8h4M] }) ∧
    phaseOf { gP with board := some [d8h4M] } = Phase.InProgress ∧
    ¬phaseOf { gP with board := some [d8h4M] } = Phase.Finished :=
  ⟨rfl, rfl, by decide, by decide⟩

/-- C3 amended: if the human's legal move mates, the response is
`Checkmate, you win!`; if it leaves stalemate or insufficient material, the
response is `Draw`; in both cases the message is returned immediately with
only the human's move pushed (the engine does not move), but no `Finished`
phase is recorded: the flags are untouched and the phase remains
`InProgress`. -/
theorem terminal_human_move_reports (R : Rules) (E : Engine) (g : ChessGame)
    (b : Board) (s : String) (mv : UciMove)
    (hph : phaseOf g = Phase.InProgress) (hb : g.board = some b)
    (hm : fromUci (pyLower (pyStrip s)) = some mv)
    (hleg : mv ∈ R.legalMoves b) :
    (R.isCheckmate (pushMove b mv) = true →
      make_move R E g s =
        (.ok "Checkmate, you win!", { g with board := some (pushMove b mv) }) ∧
      phaseOf { g with board := some (pushMove b mv) } = Phase.InProgress) ∧
    (R.isCheckmate (pushMove b mv) = false →
      (R.isStalemate (pushMove b mv) ||
        R.isInsufficientMaterial (pushMove b mv)) = true →
      make_move R E g s =
        (.ok "Draw", { g with board := some (pushMove b mv) }) ∧
      phaseOf { g with board := some (pushMove b mv) } = Phase.InProgress) := by
  constructor
  · intro hcm
    refine ⟨by simp [make_move, hm, hb, hleg, hcm], ?_⟩
    rw [show phaseOf { g with board := some (pushMove b mv) } = phaseOf g
      from rfl]
    exact hph
  · intro hcm hds
    refine ⟨by simp [make_move, hm, hb, hleg, hcm, hds], ?_⟩
    rw [show phaseOf { g with board := some (pushMove b mv) } = phaseOf g
      from rfl]
    exact hph

/-- C3 amended witness: the mating oracle at the reachable state `gP`. -/
theorem terminal_human_move_reports_witness :
    phaseOf gP = Phase.InProgress ∧ gP.board = some startBoard ∧
    fromUci (pyLower (pyStrip "d8h4")) = some d8h4M ∧
    d8h4M ∈ Rmate.legalMoves startBoard ∧
    Rmate.isCheckmate (pushMove startBoard d8h4M) = true ∧
    make_move Rmate Enone gP "d8h4" =
      (.ok "Checkmate, you win!",
       { gP with board := some (pushMove startBoard d8h4M) }) :=
  let h := terminal_human_move_reports Rmate Enone gP startBoard "d8h4" d8h4M
    (by decide) rfl (by decide) (by decide)
  ⟨by decide, rfl, by decide, by decide, by decide, (h.1 (by decide)).1⟩

/-- C4: while a game is in progress, an input that fails to parse or parses
to a move outside the current legal-move set gets the literal response
`Illegal move`, with the session state returned unchanged. -/
theorem illegal_move_rejected (R : Rules) (E : Engine) (g : ChessGame)
    (b : Board) (raw : String) (hph : phaseOf g = Phase.InProgress)
    (hb : g.board = some b)
    (hbad : fromUci (pyLower (pyStrip raw)) = none ∨
      ∃ m, fromUci (pyLower (pyStrip raw)) = some m ∧ m ∉ R.legalMoves b) :
    moveRoute R E g raw = (.ok "Illegal move", g) := by
  obtain ⟨hwf, hgs⟩ := (phase_inProgress_iff g).mp hph
  rw [moveRoute_inProgress R E g raw hwf hgs]
  rcases hbad with hnone | ⟨m, hm, hnotin⟩
  · simp [make_move, pyStrip_idem, hnone]
  · simp [make_move, pyStrip_idem, hm, hb, hnotin]

/-- C4 witness: `e2e5` on the initial position is parseable but illegal. -/
theorem illegal_move_rejected_witness :
    phaseOf gP = Phase.InProgress ∧ gP.board = some startBoard ∧
    (∃ m, fromUci (pyLower (pyStrip "e2e5")) = some m ∧
      m ∉ R0.legalMoves startBoard) ∧
    moveRoute R0 E0 gP "e2e5" = (.ok "Illegal move", gP) :=
  ⟨by decide, rfl, ⟨⟨12, 36, none, none⟩, by decide, by decide⟩,
   illegal_move_rejected R0 E0 gP startBoard "e2e5" (by decide) rfl
     (Or.inr ⟨⟨12, 36, none, none⟩, by decide, by decide⟩)⟩

/-- C5 counterexample: a selector string that `from_uci` cannot parse is not
turned into an engine failure — the parse exception escapes `_get_engine_move`
and the whole move operation (modelled by `Except.error`), so the claimed
parseability validation and no-crash guarantee do not hold. -/
theorem engine_unparseable_raises :
    getEngineMove R0 Ebad (pushMove startBoard e2e4M) =
      (.error (.invalidMove "xyz"), pushMove startBoard e2e4M) ∧
    make_move R0 Ebad gP "e2e4" =
      (.error (.invalidMove "xyz"), { gP with board := some [e2e4M] }) :=
  ⟨rfl, rfl⟩

/-- C5 amended: the engine turn checks only legality, not parseability.  A
falsy reply (None or empty) or a parseable reply outside the legal-move set
yields the failure result with no move applied; a parseable legal reply is
pushed; but a non-empty unparseable reply raises an uncaught
`InvalidMoveError` (still with no move applied), which escapes the
operation. -/
theorem engine_turn_characterization (R : Rules) (E : Engine) (b : Board) :
    (E.bestMoveTime b = none → getEngineMove R E b = (.ok none, b)) ∧
    (E.bestMoveTime b = some "" → getEngineMove R E b = (.ok none, b)) ∧
    (∀ s, E.bestMoveTime b = some s → s ≠ "" → fromUci s = none →
      getEngineMove R E b = (.error (.invalidMove s), b)) ∧
    (∀ s m, E.bestMoveTime b = some s → fromUci s = some m →
      m ∉ R.legalMoves b → getEngineMove R E b = (.ok none, b)) ∧
    (∀ s m, E.bestMoveTime b = some s → fromUci s = some m →
      m ∈ R.legalMoves b →
      getEngineMove R E b = (.ok (some s), pushMove b m)) := by
  refine ⟨?_, ?_, ?_, ?_, ?_⟩
  · intro h; simp [getEngineMove, h]
  · intro h; simp [getEngineMove, h]
  · intro s hE hne hm; simp [getEngineMove, hE, hne, hm]
  · intro s m hE hm hnot
    have hne : s ≠ "" := by
      intro h; subst h
      rw [show fromUci "" = none from rfl] at hm
      exact Option.noConfusion hm
    simp [getEngineMove, hE, hne, hm, hnot]
  · intro s m hE hm hleg
    have hne : s ≠ "" := by
      intro h; subst h
      rw [show fromUci "" = none from rfl] at hm
      exact Option.noConfusion hm
    simp [getEngineMove, hE, hne, hm, hleg]

/-- C5 amended witness: the unparseable reply `xyz` raises; a silent
selector fails cleanly. -/
theorem engine_turn_characterization_witness :
    Ebad.bestMoveTime startBoard = some "xyz" ∧ ("xyz" : String) ≠ "" ∧
    fromUci "xyz" = none ∧
    getEngineMove R0 Ebad startBoard =
      (.error (.invalidMove "xyz"), startBoard) ∧
    Enone.bestMoveTime startBoard = none ∧
    getEngineMove R0 Enone startBoard = (.ok none, startBoard) :=
  ⟨rfl, by decide, rfl,
   (engine_turn_characterization R0 Ebad startBoard).2.2.1 "xyz" rfl
     (by decide) rfl,
   rfl, (engine_turn_characterization R0 Enone startBoard).1 rfl⟩

/-- C6 counterexample: a reachable trace where `submitMove` reports `Draw`
(insufficient material) and a following `submitMove`, with no intervening
`start`, is still dispatched and applies a further move — `Finished` is
never entered and does not gate `submitMove`. -/
theorem draw_then_more_moves :
    moveRoute RD ED gStart "white" =
      (.ok "You are white. First move: e2e4", gA6) ∧
    moveRoute RD ED gA6 "e7e5" = (.ok "Draw", gB6) ∧
    phaseOf gB6 = Phase.InProgress ∧
    moveRoute RD ED gB6 "g2g4" =
      (.ok "Draw", { gB6 with board := some [e2e4M, e7e5M, g2g4M] }) :=
  ⟨rfl, rfl, by decide, rfl⟩

/-- C6 amended: the code encodes no `Finished` phase.  `make_move` never
touches the color or phase flags — in particular a terminal report leaves
the phase exactly as it was (`InProgress`), never `Finished` (no flag value
encodes `Finished` at all) — and afterwards `/move` still dispatches to
`make_move`, so `submitMove` stays reachable without an intervening
`start`. -/
theorem make_move_preserves_flags (R : Rules) (E : Engine) (g : ChessGame)
    (s : String) :
    (make_move R E g s).2.game_started = g.game_started ∧
    (make_move R E g s).2.waiting_for_color = g.waiting_for_color ∧
    (make_move R E g s).2.user_color = g.user_color ∧
    phaseOf (make_move R E g s).2 = phaseOf g ∧
    phaseOf (make_move R E g s).2 ≠ Phase.Finished ∧
    (phaseOf g = Phase.InProgress → ∀ s2,
      moveRoute R E (make_move R E g s).2 s2 =
        make_move R E (make_move R E g s).2 (pyStrip s2)) := by
  obtain ⟨r, ob, hsh⟩ := make_move_shape R E g s
  rw [hsh]
  refine ⟨rfl, rfl, rfl, rfl, phaseOf_ne_finished _, ?_⟩
  intro hph s2
  obtain ⟨hwf, hgs⟩ := (phase_inProgress_iff g).mp hph
  exact moveRoute_inProgress R E _ s2 hwf hgs

/-- C6 amended witness: after a human move at `gP`, the flags are unchanged
and a further `/move` is dispatched to `make_move`. -/
theorem make_move_preserves_flags_witness :
    phaseOf gP = Phase.InProgress ∧
    (make_move R0 E0 gP "e2e4").2.game_started = gP.game_started ∧
    phaseOf (make_move R0 E0 gP "e2e4").2 ≠ Phase.Finished ∧
    moveRoute R0 E0 (make_move R0 E0 gP "e2e4").2 "e7e5" =
      make_move R0 E0 (make_move R0 E0 gP "e2e4").2 (pyStrip "e7e5") :=
  let h := make_move_preserves_flags R0 E0 gP "e2e4"
  ⟨by decide, h.1, h.2.2.2.2.1, h.2.2.2.2.2 (by decide) "e7e5"⟩

/-- C7 counterexample: after the engine, assigned White, fails its first
move, the response is `Engine error` and the phase is `InProgress` with no
move applied — but the caller cannot retry by resubmitting a color: a
resubmitted color word is routed to `make_move` and rejected as
`Illegal move`, leaving the state unchanged. -/
theorem engine_failure_no_color_retry :
    moveRoute R0 Enone gStart "white" = (.ok "Engine error", gF) ∧
    phaseOf gF = Phase.InProgress ∧ gF.board = some startBoard ∧
    moveRoute R0 Enone gF "white" = (.ok "Illegal move", gF) ∧
    moveRoute R0 Enone gF " black " = (.ok "Illegal move", gF) :=
  ⟨rfl, by decide, rfl, rfl, rfl⟩

/-- C7 amended: when the engine, assigned White during `chooseColor`, fails
to produce a move (a falsy or illegal reply), the operation answers
`Engine error` and leaves the phase `InProgress` with no move applied; the
caller cannot retry by resubmitting a color, since every further `/move`
body is dispatched to `make_move`. -/
theorem engine_failure_reports_error (R : Rules) (E : Engine) (g : ChessGame)
    (b : Board) (raw : String) (hph : phaseOf g = Phase.AwaitingColorChoice)
    (hb : g.board = some b) (hc : pyLower (pyStrip raw) = "white")
    (hfail : getEngineMove R E b = (.ok none, b)) :
    moveRoute R E g raw =
      (.ok "Engine error",
       { g with user_color := some false, game_started := true,
                waiting_for_color := false }) ∧
    phaseOf (moveRoute R E g raw).2 = Phase.InProgress ∧
    (moveRoute R E g raw).2.board = some b ∧
    ∀ raw2, moveRoute R E (moveRoute R E g raw).2 raw2 =
      make_move R E (moveRoute R E g raw).2 (pyStrip raw2) := by
  have hwc := (phase_awaiting_iff g).mp hph
  have hci : pyLower (pyStrip (pyStrip raw)) = "white" := by
    rw [pyStrip_idem]; exact hc
  have h1 := (moveRoute_awaiting R E g raw hwc).trans
    (set_color_white_fail R E g b (pyStrip raw) hci hb hfail)
  refine ⟨h1, ?_, ?_, ?_⟩
  · rw [h1]; rfl
  · rw [h1]; exact hb
  · intro raw2
    rw [h1]
    exact moveRoute_inProgress R E _ raw2 rfl rfl

/-- C7 amended witness: the silent selector at the state after `/start`. -/
theorem engine_failure_reports_error_witness :
    phaseOf gStart = Phase.AwaitingColorChoice ∧
    gStart.board = some startBoard ∧
    pyLower (pyStrip "white") = "white" ∧
    getEngineMove R0 Enone startBoard = (.ok none, startBoard) ∧
    moveRoute R0 Enone gStart "white" =
      (.ok "Engine error",
       { gStart with user_color := some false, game_started := true,
                     waiting_for_color := false }) :=
  ⟨by decide, rfl, by decide, rfl,
   (engine_failure_reports_error R0 Enone gStart startBoard "white"
     (by decide) rfl (by decide) rfl).1⟩

/-- C8: while a color is awaited, any `/move` body that is not
case-insensitively `white` or `black` after trimming — for instance `e2e4` —
is refused with the invalid-input response and the state returned unchanged
(still awaiting a color, no move applied). -/
theorem invalid_color_rejected (R : Rules) (E : Engine) (g : ChessGame)
    (raw : String) (hph : phaseOf g = Phase.AwaitingColorChoice)
    (hw : pyLower (pyStrip raw) ≠ "white")
    (hb : pyLower (pyStrip raw) ≠ "black") :
    moveRoute R E g raw =
      (.ok "Invalid color. Choose \x27black\x27 or \x27white\x27.", g) := by
  have hwc := (phase_awaiting_iff g).mp hph
  rw [moveRoute_awaiting R E g raw hwc]
  exact set_color_invalid R E g (pyStrip raw)
    (by rw [pyStrip_idem]; exact hb) (by rw [pyStrip_idem]; exact hw)

/-- C8 witness: submitting the move `e2e4` before choosing a color. -/
theorem invalid_color_rejected_witness :
    phaseOf gStart = Phase.AwaitingColorChoice ∧
    pyLower (pyStrip "e2e4") ≠ "white" ∧
    pyLower (pyStrip "e2e4") ≠ "black" ∧
    moveRoute R0 E0 gStart "e2e4" =
      (.ok "Invalid color. Choose \x27black\x27 or \x27white\x27.", gStart) :=
  ⟨by decide, by decide, by decide,
   invalid_color_rejected R0 E0 gStart "e2e4" (by decide) (by decide)
     (by decide)⟩

/-- C9: `start_game` always succeeds with the fixed prompt, resets the board
to the fresh initial position and the phase to `AwaitingColorChoice` from
any prior state, and is idempotent: a second call yields exactly the same
response and state as the first. -/
theorem start_game_idempotent (g : ChessGame) :
    (start_game g).1 = "Game started. Choose engine color: black or white?" ∧
    (start_game g).2.board = some startBoard ∧
    phaseOf (start_game g).2 = Phase.AwaitingColorChoice ∧
    start_game (start_game g).2 = start_game g :=
  ⟨rfl, rfl, rfl, rfl⟩

/-- C10: `make_move` never compares the side to move with `user_color`: any
input parsing to a member of the legal-move set is pushed, whichever side it
moves, and overwriting `user_color` commutes with the whole operation. -/
theorem make_move_ignores_user_color (R : Rules) (E : Engine) (g : ChessGame)
    (b : Board) (s : String) (mv : UciMove) (c : Option Bool)
    (hb : g.board = some b)
    (hm : fromUci (pyLower (pyStrip s)) = some mv)
    (hleg : mv ∈ R.legalMoves b) :
    (∃ rest, (make_move R E g s).2.board = some (pushMove b mv ++ rest)) ∧
    make_move R E { g with user_color := c } s =
      ((make_move R E g s).1,
       { (make_move R E g s).2 with user_color := c }) :=
  ⟨make_move_applies R E g b s mv hb hm hleg,
   make_move_user_color R E g s c⟩

/-- C10 witness: `e2e4` is applied at `gP` regardless of the stored human
color. -/
theorem make_move_ignores_user_color_witness :
    gP.board = some startBoard ∧
    fromUci (pyLower (pyStrip "e2e4")) = some e2e4M ∧
    e2e4M ∈ R0.legalMoves startBoard ∧
    (∃ rest, (make_move R0 E0 gP "e2e4").2.board =
      some (pushMove startBoard e2e4M ++ rest)) ∧
    make_move R0 E0 { gP with user_color := some false } "e2e4" =
      ((make_move R0 E0 gP "e2e4").1,
       { (make_move R0 E0 gP "e2e4").2 with user_color := some false }) :=
  let h := make_move_ignores_user_color R0 E0 gP startBoard "e2e4" e2e4M
    (some false) rfl (by decide) (by decide)
  ⟨rfl, by decide, by decide, h.1, h.2⟩

end Faluda
